import Mathlib

/-!
Verification of the cpeq-infolettre-automatique newsletter pipeline.

This file gives a shallow Lean embedding of the core data model and
operations of the repository (pydantic schemas, the retrieval-based
classification strategies, the vector-store post-filtering, the summary
generator prompt construction, the newsletter rendering, the pipeline
filter, and the Webscraper.io client throttling logic), together with
theorems settling the specification claims about them.

Modelling conventions:
- Python `dict`s are embedded as association lists which preserve the
  Python 3.7+ insertion-order semantics.
- Python `datetime` values are embedded as integers (an epoch-second
  model); only their linear order is used by the code under study.
- Python floats are embedded as rationals `ℚ` for raw scores and as
  reals `ℝ` once `exp` enters (softmax outputs).
- Fallible Python code (raise) is embedded with `Except PyErr`.
-/

/-- Python exception kinds raised by the embedded code. -/
inductive PyErr where
  | notImplementedError
  | attributeError
  | valueError
  | validationError
  | keyError
  deriving DecidableEq, Repr

/-- The `Rubric` enumeration from `config.py`, in source declaration
order (`AUTRE` first). -/
inductive Rubric where
  | AUTRE
  | CHANGEMENT_CLIMATIQUE_ET_ENERGIE
  | ACCEPTABILITE_SOCIALE_BRUIT_ET_TROUBLES_DE_VOISINAGE
  | AMENAGEMENT_DU_TERRITOIRE_ET_URBANISME
  | APPLICATION_DE_LA_LOI_ET_AFFAIRES_JURIDIQUES
  | BIODIVERSITE_MILIEUX_HUMIDES_ET_ESPECES_EN_PERIL
  | DEVELOPPEMENT_DURABLE_RSE_ET_CRITERES_ESG
  | DEVELOPPEMENT_NORDIQUE
  | DOMAINE_AEROSPATIAL
  | DOMAINE_AGRICOLE
  | EAU_ET_DOMAINE_MARITIME
  | EVALUATIONS_ENVIRONNEMENTALES
  | MATIERES_DANGEREUSES_ET_PESTICIDES
  | MATIERES_ORGANIQUES_MATIERES_RESIDUELLES_ECOLOGIE_INDUSTRIELLE_ET_ECONOMIE_CIRCULAIRE
  | NOUVELLES_ADMINISTRATIVES
  | PECHERIES
  | POLITIQUES_PUBLIQUES_ET_GOUVERNEMENTALES
  | QUALITE_DE_LAIR
  | RESSOURCES_NATURELLES
  | SECTEUR_MANUFACTURIER_ET_PME
  | SOLS_ET_TERRAINS_CONTAMINES
  | SUBSTANCES_CHIMIQUES
  | TECHNOLOGIES_PROPRES
  | TRANSPORT_ET_MOBILITE_DURABLE
  deriving DecidableEq, Repr

/-- The string value of each `Rubric` member, from `config.py`. -/
def Rubric.value : Rubric → String
  | .AUTRE => "Autre"
  | .CHANGEMENT_CLIMATIQUE_ET_ENERGIE => "Changements climatiques et énergie"
  | .ACCEPTABILITE_SOCIALE_BRUIT_ET_TROUBLES_DE_VOISINAGE =>
      "Acceptabilité sociale, bruit et troubles de voisinage"
  | .AMENAGEMENT_DU_TERRITOIRE_ET_URBANISME => "Aménagement du territoire et urbanisme"
  | .APPLICATION_DE_LA_LOI_ET_AFFAIRES_JURIDIQUES =>
      "Application de la loi et affaires juridiques"
  | .BIODIVERSITE_MILIEUX_HUMIDES_ET_ESPECES_EN_PERIL =>
      "Biodiversité, milieux humides et espèces en péril"
  | .DEVELOPPEMENT_DURABLE_RSE_ET_CRITERES_ESG =>
      "Développement durable, RSE et critères ESG"
  | .DEVELOPPEMENT_NORDIQUE => "Développement nordique"
  | .DOMAINE_AEROSPATIAL => "Domaine aérospatial"
  | .DOMAINE_AGRICOLE => "Domaine agricole"
  | .EAU_ET_DOMAINE_MARITIME => "Eau et domaine maritime"
  | .EVALUATIONS_ENVIRONNEMENTALES => "Évaluations environnementales"
  | .MATIERES_DANGEREUSES_ET_PESTICIDES => "Matières dangereuses et pesticides"
  | .MATIERES_ORGANIQUES_MATIERES_RESIDUELLES_ECOLOGIE_INDUSTRIELLE_ET_ECONOMIE_CIRCULAIRE =>
      "Matières organiques, matières résiduelles, Écologie industrielle et économie circulaire"
  | .NOUVELLES_ADMINISTRATIVES => "Nouvelles administratives"
  | .PECHERIES => "Pêcheries"
  | .POLITIQUES_PUBLIQUES_ET_GOUVERNEMENTALES => "Politiques publiques et gouvernementales"
  | .QUALITE_DE_LAIR => "Qualité de l\x27air"
  | .RESSOURCES_NATURELLES => "Ressources naturelles"
  | .SECTEUR_MANUFACTURIER_ET_PME => "Secteur manufacturier et PME"
  | .SOLS_ET_TERRAINS_CONTAMINES => "Sols et terrains contaminés"
  | .SUBSTANCES_CHIMIQUES => "Substances chimiques"
  | .TECHNOLOGIES_PROPRES => "Technologies propres"
  | .TRANSPORT_ET_MOBILITE_DURABLE => "Transport et mobilité durable"

/-- The position of a `Rubric` member in the enumeration declaration
order of `config.py` (used to state the enumeration-order claim). -/
def Rubric.enumIndex : Rubric → Nat
  | .AUTRE => 0
  | .CHANGEMENT_CLIMATIQUE_ET_ENERGIE => 1
  | .ACCEPTABILITE_SOCIALE_BRUIT_ET_TROUBLES_DE_VOISINAGE => 2
  | .AMENAGEMENT_DU_TERRITOIRE_ET_URBANISME => 3
  | .APPLICATION_DE_LA_LOI_ET_AFFAIRES_JURIDIQUES => 4
  | .BIODIVERSITE_MILIEUX_HUMIDES_ET_ESPECES_EN_PERIL => 5
  | .DEVELOPPEMENT_DURABLE_RSE_ET_CRITERES_ESG => 6
  | .DEVELOPPEMENT_NORDIQUE => 7
  | .DOMAINE_AEROSPATIAL => 8
  | .DOMAINE_AGRICOLE => 9
  | .EAU_ET_DOMAINE_MARITIME => 10
  | .EVALUATIONS_ENVIRONNEMENTALES => 11
  | .MATIERES_DANGEREUSES_ET_PESTICIDES => 12
  | .MATIERES_ORGANIQUES_MATIERES_RESIDUELLES_ECOLOGIE_INDUSTRIELLE_ET_ECONOMIE_CIRCULAIRE => 13
  | .NOUVELLES_ADMINISTRATIVES => 14
  | .PECHERIES => 15
  | .POLITIQUES_PUBLIQUES_ET_GOUVERNEMENTALES => 16
  | .QUALITE_DE_LAIR => 17
  | .RESSOURCES_NATURELLES => 18
  | .SECTEUR_MANUFACTURIER_ET_PME => 19
  | .SOLS_ET_TERRAINS_CONTAMINES => 20
  | .SUBSTANCES_CHIMIQUES => 21
  | .TECHNOLOGIES_PROPRES => 22
  | .TRANSPORT_ET_MOBILITE_DURABLE => 23

/-- The `Relevance` enumeration from `config.py`. -/
inductive Relevance where
  | PERTINENT
  | AUTRE
  deriving DecidableEq, Repr

/-- The string value of each `Relevance` member, from `config.py`. -/
def Relevance.value : Relevance → String
  | .PERTINENT => "Pertinent"
  | .AUTRE => "Autre"

/-- The `News` pydantic schema from `schemas.py`. `title` and `content`
are validated non-empty strings; `link` is a URL kept as its string;
`datetime` is nullable (embedded as an epoch-second integer);
`rubric` and `summary` are null until assigned. -/
structure News where
  title : String
  content : String
  link : String
  datetime : Option Int
  rubric : Option Rubric
  summary : Option String
  deriving DecidableEq, Repr

namespace WebscraperIo

/-! ## `webscraper_io_client.py` — rate-limit handling (claim C1)

`WebscraperIoClient._handle_throttling` reads the `x-ratelimit-reset`
header; each request method, on an HTTP 429, awaits
`_handle_throttling(response)` and then re-issues the identical request
once for that 429 (recursively, so each fresh 429 triggers another
handle-and-retry cycle).  The embedding records the sequence of
`asyncio.sleep` durations performed, in seconds. -/

def SECONDS_IN_MINUTE : Int := 60

def LIMIT_MAX_SECONDS : Int := 15 * SECONDS_IN_MINUTE

/-- Embedding of `WebscraperIoClient._handle_throttling`.  Input: the
value of the `x-ratelimit-reset` header (a unix timestamp) if present,
and the current time; output: the list of sleep durations performed.

Faithful to the source: when the header is present the code computes
`seconds_to_reset = (reset - now).total_seconds() + 1` but the
`await asyncio.sleep(seconds_to_reset)` statement is inside the `else`
branch of the `if timestamp is not None` test, so no sleep happens;
only the header-absent fallback branch sleeps (for `LIMIT_MAX_SECONDS`). -/
def handle_throttling (resetHeader : Option Int) (now : Int) : List Int :=
  match resetHeader with
  | some timestamp =>
      let _seconds_to_reset := (timestamp - now) + 1
      []
  | none => [LIMIT_MAX_SECONDS]

/-- One HTTP response of the Webscraper.io API, as seen by
`download_scraping_job_data`: a 429 with an optional
`x-ratelimit-reset` header, a success whose body parses into news
records (`none` entries model records rejected by
`News.model_validate`), or another HTTP error. -/
inductive ApiResponse where
  | rateLimited (resetHeader : Option Int)
  | success (records : List (Option News))
  | httpError (statusCode : Nat)

/-- Embedding of `WebscraperIoClient.download_scraping_job_data` over a
script of successive responses of the transport (first element answers
the first request, and each retry consumes the next element).  Returns
the sleeps performed and the news list produced, or `none` when the
script is exhausted.  On a 429 the method calls `_handle_throttling`
and retries the identical request exactly once for that 429; on another
HTTP error it logs and returns no news; on success it validates each
record, skipping invalid ones. -/
def download_scraping_job_data (now : Int) :
    List ApiResponse → Option (List Int × List News)
  | [] => none
  | .rateLimited h :: rest =>
      (download_scraping_job_data now rest).map
        (fun r => (handle_throttling h now ++ r.1, r.2))
  | .success records :: _ => some ([], records.filterMap id)
  | .httpError _ :: _ => some ([], [])

end WebscraperIo

namespace VectorstoreMod

/-! ## `vectorstore.py` (claims C7 and C9) -/

/-- One object returned by the Weaviate hybrid query inside
`Vectorstore.hybrid_search`: its properties validate into a `News`,
and its metadata carries an optional score. -/
structure RetrievedObject where
  properties : News
  score : Option ℚ
  deriving DecidableEq

/-- Embedding of the result post-processing of
`Vectorstore.hybrid_search` (the Weaviate query itself is the external
collaborator; `objects` is its returned list).  The source keeps the
pair `(News.model_validate(obj.properties), obj.metadata.score)` iff
`obj.metadata.score is not None and obj.metadata.score > self.minimal_score`. -/
def hybrid_search (minimal_score : ℚ) (objects : List RetrievedObject) :
    List (News × ℚ) :=
  objects.filterMap (fun obj =>
    match obj.score with
    | some s => if minimal_score < s then some (obj.properties, s) else none
    | none => none)

/-- The 16 bytes of `uuid.NAMESPACE_DNS`. -/
def NAMESPACE_DNS : List Nat :=
  [0x6b, 0xa7, 0xb8, 0x10, 0x9d, 0xad, 0x11, 0xd1,
   0x80, 0xb4, 0x00, 0xc0, 0x4f, 0xd4, 0x30, 0xc8]

/-- Set the RFC 4122 version (5) and variant bits on a truncated
digest, as `uuid.UUID(bytes=..., version=5)` does: byte 6 keeps its low
nibble and gets high nibble `0x5`; byte 8 keeps its low six bits and
gets variant bits `10`. -/
def setVersion5Bits (bytes : List Nat) : List Nat :=
  bytes.mapIdx (fun i b =>
    if i = 6 then b % 16 + 0x50
    else if i = 8 then b % 64 + 0x80
    else b)

/-- Embedding of Python `uuid.uuid5(namespace, name)`: the SHA-1 digest
of the namespace bytes followed by the UTF-8 encoding of `name`,
truncated to 16 bytes with version/variant bits set.  The SHA-1
compression itself is the standard-library primitive and is passed in
as the function `sha1`; every theorem below holds for an arbitrary
digest function. -/
def uuid5 (sha1 : List Nat → List Nat) (namespaceBytes : List Nat) (name : String) :
    List Nat :=
  setVersion5Bits ((sha1 (namespaceBytes ++ (name.toUTF8.toList.map UInt8.toNat))).take 16)

/-- Embedding of `Vectorstore.create_uuid`:
`uuid.uuid5(uuid.NAMESPACE_DNS, news.title)`. -/
def create_uuid (sha1 : List Nat → List Nat) (news : News) : List Nat :=
  uuid5 sha1 NAMESPACE_DNS news.title

end VectorstoreMod

/-- Python `dict` lookup `d.get(k)` on an insertion-ordered dictionary
embedded as an association list: the value at the first matching key. -/
def dictGet {κ ν : Type} [DecidableEq κ] : List (κ × ν) → κ → Option ν
  | [], _ => none
  | (k, v) :: rest, key => if k = key then some v else dictGet rest key

/-- Python `dict` assignment `d[k] = v`: replace the value in place when
the key exists (its position is unchanged), append the pair otherwise. -/
def dictSet {κ ν : Type} [DecidableEq κ] : List (κ × ν) → κ → ν → List (κ × ν)
  | [], key, value => [(key, value)]
  | (k, v) :: rest, key, value =>
      if k = key then (k, value) :: rest else (k, v) :: dictSet rest key value

namespace ClassificationAlgo

/-! ## `classification_algo.py` / `news_classifier.py` —
`MaxPoolingNewsClassifier` (claim C8) -/

/-- Dot product of two embedding vectors. -/
def dotProduct (x y : List ℝ) : ℝ := (List.zipWith (fun a b => a * b) x y).sum

/-- `sklearn.metrics.pairwise.cosine_similarity` of two vectors. -/
noncomputable def cosine_similarity (x y : List ℝ) : ℝ :=
  dotProduct x y / (Real.sqrt (dotProduct x x) * Real.sqrt (dotProduct y y))

/-- The attribute state of a `MaxPoolingNewsClassifier` instance.  In
the `news_classifier.py` variant `__init__` assigns `self.labels = []`
while `self.label_average_embeddings` is only ever assigned inside
`setup`; `none` models the attribute being undefined (reading it
raises `AttributeError`).  In the `classification_algo.py` variant
`__init__` assigns neither attribute. -/
structure MaxPoolingNewsClassifier where
  labels : List String
  label_average_embeddings : Option (List (String × List ℚ))

/-- The state of a freshly constructed `MaxPoolingNewsClassifier`
(`news_classifier.py` variant) on which `setup` was never called. -/
def MaxPoolingNewsClassifier.init : MaxPoolingNewsClassifier := ⟨[], none⟩

/-- Componentwise `np.mean(embeddings, axis=0)` of a list of embedding
vectors (vectors of one training corpus share their length). -/
def vectorMean (vs : List (List ℚ)) : List ℚ :=
  match vs with
  | [] => []
  | v :: _ =>
      (List.range v.length).map (fun i => (vs.map (fun w => w.getD i 0)).sum / vs.length)

/-- Embedding of `MaxPoolingNewsClassifier.setup`: `self.labels` gets
the training labels with duplicates removed (`list({...})`; a Python
set fixes no order, first-occurrence order is the deterministic model)
and `self.label_average_embeddings` maps each label to the mean of its
training embeddings. -/
def MaxPoolingNewsClassifier.setup (_c : MaxPoolingNewsClassifier)
    (train_news : List (String × List ℚ)) : MaxPoolingNewsClassifier :=
  let labels := (train_news.map Prod.fst).foldl
    (fun acc l => if l ∈ acc then acc else acc ++ [l]) []
  ⟨labels,
   some (labels.map (fun l => (l, vectorMean ((train_news.filter (fun p => p.1 = l)).map Prod.snd))))⟩

/-- Embedding of `MaxPoolingNewsClassifier.predict_scores` (the query
construction and on-demand embedding call are external; `embedding` is
the query embedding).  The source initializes
`label_scores = dict.fromkeys(self.labels, 0.0)` and then iterates
`self.label_average_embeddings.items()`, setting each label's score to
the cosine similarity with its centroid; reading
`self.label_average_embeddings` before `setup` raises
`AttributeError`. -/
noncomputable def MaxPoolingNewsClassifier.predict_scores
    (c : MaxPoolingNewsClassifier) (embedding : List ℚ) :
    Except PyErr (List (String × ℝ)) :=
  let label_scores : List (String × ℝ) := c.labels.map (fun l => (l, 0))
  match c.label_average_embeddings with
  | none => .error .attributeError
  | some centroids =>
      .ok (centroids.foldl
        (fun acc p =>
          dictSet acc p.1
            (cosine_similarity (embedding.map (fun q => (q : ℝ))) (p.2.map (fun q => (q : ℝ)))))
        label_scores)

/-! ## `classification_algo.py` — `NewsClassifier.predict_probs`
(claims C2 and C3).  A Python `{label: score}` dict is an
insertion-ordered association list with `String` keys. -/

/-- Embedding of
`sorted(predicted_scores.items(), key=operator.itemgetter(1), reverse=True)`:
a stable sort of the score pairs, descending by score (Python's
`sorted` is stable, also with `reverse=True`). -/
def sort_scores_desc (predicted_scores : List (String × ℚ)) : List (String × ℚ) :=
  predicted_scores.mergeSort (fun a b => decide (b.2 ≤ a.2))

/-- Embedding of `NewsClassifier.softmax_scores`:
`scipy.special.softmax` over the dict values, zipped back with the
keys in order.  `softmax(x)_i = exp(x_i) / sum_j exp(x_j)` (scipy
computes it with a max-shift; the value is identical). -/
noncomputable def softmax_scores (scores : List (String × ℚ)) : List (String × ℝ) :=
  let denom := (scores.map (fun p => Real.exp ((p.2 : ℝ)))).sum
  scores.map (fun p => (p.1, Real.exp ((p.2 : ℝ)) / denom))

/-- Embedding of `NewsClassifier.predict_probs` given the output of
the subclass's `predict_scores` (its vector-store queries are the
external collaborator): default to `{Autre: 1.0}` when empty, sort
descending by raw score, then normalize with softmax. -/
noncomputable def predict_probs (predicted_scores : List (String × ℚ)) :
    List (String × ℝ) :=
  let scores :=
    if predicted_scores.isEmpty then [(Rubric.AUTRE.value, (1 : ℚ))]
    else predicted_scores
  softmax_scores (sort_scores_desc scores)

end ClassificationAlgo

namespace ServiceMod

/-! ## `service.py` — the per-job pipeline filter (claim C6) -/

/-- Embedding of `Service._news_in_date_range`: `False` when the news
has no datetime or when `start_date <= news.datetime < end_date`
fails, `True` otherwise. -/
def news_in_date_range (news : News) (start_date end_date : Int) : Bool :=
  match news.datetime with
  | none => false
  | some d => decide (start_date ≤ d) && decide (d < end_date)

/-- Embedding of `Service._news_is_relevant`: the news is relevant iff
the relevancy classifier does not predict `Relevance.AUTRE`.  The
classifier's `predict` is the external dependency
`news_relevancy_classifier` of the `Service`, passed as a function. -/
def news_is_relevant (relevancy_predict : News → Relevance) (news : News) : Bool :=
  !(relevancy_predict news == Relevance.AUTRE)

/-- Embedding of `Service._filter_all_news`: keep exactly the news in
the `[start_date, end_date)` window that the relevancy classifier
keeps (the async generator yields them in input order). -/
def filter_all_news (relevancy_predict : News → Relevance) (all_news : List News)
    (start_date end_date : Int) : List News :=
  all_news.filter (fun n =>
    news_in_date_range n start_date end_date && news_is_relevant relevancy_predict n)

/-- Embedding of the `scraped_news_coroutine` body inside
`Service._prepare_scraped_news_summarization_coroutines`: the
downloaded news are filtered and only the filtered ones are run
through `news_producer.produce_news` (classification then
summarization, the external producer passed as a function). -/
def scraped_news_coroutine (produce_news : News → News)
    (relevancy_predict : News → Relevance) (downloaded : List News)
    (start_date end_date : Int) : List News :=
  (filter_all_news relevancy_predict downloaded start_date end_date).map produce_news

end ServiceMod

namespace NewsClassifierPy

/-! ## `news_classifier.py` — `NewsFilterer` (claim C3) -/

/-- Embedding of the base `NewsClassifier.predict_scores` of
`news_classifier.py`: the interface method body is
`raise NotImplementedError`. -/
def NewsClassifier.predict_scores : Except PyErr (List (String × ℚ)) :=
  .error .notImplementedError

/-- Embedding of `NewsClassifier.predict_probs` as a function of the
result of `self.predict_scores(...)` (Python dynamic dispatch resolves
`self.predict_scores` on the receiving instance): propagate the
exception, otherwise default/sort/softmax exactly as
`ClassificationAlgo.predict_probs`. -/
noncomputable def predict_probs_of
    (predict_scores_result : Except PyErr (List (String × ℚ))) :
    Except PyErr (List (String × ℝ)) :=
  predict_scores_result.map ClassificationAlgo.predict_probs

/-- A `NewsFilterer` instance: `__init__` stores the wrapped
`news_classifier` (embedded by its `predict_scores` behaviour) and the
threshold (default 0.50). -/
structure NewsFilterer where
  news_classifier : News → Except PyErr (List (String × ℚ))
  threshold : ℚ

open Classical in
/-- Embedding of `NewsFilterer.predict`.  The source runs
`predicted_probs = await self.predict_probs(news, embedding, ids_to_keep)`
on `self` — the `NewsFilterer` itself, which inherits
`NewsClassifier.predict_probs` and does not override
`predict_scores` — then looks up
`predicted_probs[Relevance.AUTRE.value]` and compares it to
`self.threshold`. -/
noncomputable def NewsFilterer.predict (nf : NewsFilterer) (_news : News) :
    Except PyErr Relevance := do
  let predicted_probs ← predict_probs_of NewsClassifier.predict_scores
  let pAutre ←
    match dictGet predicted_probs Relevance.AUTRE.value with
    | some v => Except.ok v
    | none => Except.error PyErr.keyError
  pure (if (nf.threshold : ℝ) ≤ pAutre then Relevance.AUTRE else Relevance.PERTINENT)

end NewsClassifierPy

namespace SummaryGeneratorMod

/-! ## `summary_generator.py` (claim C4) -/

/-- Python truthiness of an optional string: `None` and `""` are
falsy. -/
def truthy : Option String → Bool
  | some s => decide (s ≠ "")
  | none => false

/-- Embedding of `SummaryGenerator.format_system_prompt`: drop
reference news whose `summary` or `content` is falsy, number the
remaining exemplars from 1, and splice their content→summary pairs
into the cleandoc-ed instruction template. -/
def format_system_prompt (reference_news : List News) : String :=
  let filtered_reference_news :=
    reference_news.filter (fun n => truthy n.summary && decide (n.content ≠ ""))
  let exemples_template := String.intercalate "\n\n"
    (filtered_reference_news.enum.map (fun p =>
      "## Exemple " ++ toString (p.1 + 1) ++ "\n\n### Contenu: " ++ p.2.content ++
        "\n\n### Résumé: " ++ p.2.summary.getD ""))
  "Utilises les articles suivants pour t\x27inspirer afin de résumer un article. " ++
    "Tu auras accès au contenu des articles d\x27exemple, ainsi que leurs résumés " ++
    "respectifs.\n# Début des exemples:\n\n" ++ exemples_template ++
    "\n\nTu reçeveras en message un contenu d\x27article à résumer, ne retournes " ++
    "uniquement que le résumer de l\x27article, sans préfixe avec aucune autre information."

/-- Embedding of `SummaryGenerator.generate` given the retrieved
exemplars (`vectorstore.search_similar_news` is the external
retrieval).  The source raises `ValueError` when any exemplar's
summary is `None`; otherwise `generate_with_similar_news` calls
`completion_model.complete_message(system_prompt=..., user_message=...)`
— the external completion model — so the embedding returns the
`(system_prompt, user_message)` pair sent to it. -/
def generate (similar_news : List News) (news_to_summarize : News) :
    Except PyErr (String × String) :=
  if similar_news.any (fun n => n.summary.isNone) then .error .valueError
  else .ok (format_system_prompt similar_news, news_to_summarize.content)

end SummaryGeneratorMod

namespace SchemasMod

/-! ## `schemas.py` — `Newsletter` validation (claim C10) -/

/-- The `Newsletter` pydantic schema: a news list with
`Field(..., min_length=1)`, a datetime range and a publication
datetime. -/
structure Newsletter where
  news : List News
  news_datetime_range : Int × Int
  publication_datetime : Int
  deriving DecidableEq, Repr

/-- Pydantic validation of the `Newsletter` constructor: the
`min_length=1` constraint on `news` rejects an empty list with a
`ValidationError`. -/
def Newsletter.validate (news : List News) (news_datetime_range : Int × Int)
    (publication_datetime : Int) : Except PyErr Newsletter :=
  if 1 ≤ news.length then
    .ok ⟨news, news_datetime_range, publication_datetime⟩
  else
    .error .validationError

/-! ## `schemas.py` — `Newsletter` markdown rendering (claim C5) -/

/-- The markdown text of a summarized news item, as produced by
`News.to_markdown` when the summary is present. -/
def News.markdownText (n : News) : String :=
  "### " ++ n.title ++ "\n\n" ++ n.summary.getD "" ++
    "\n\nPour en connaître davantage, nous vous invitons à consulter cet " ++
    "[hyperlien](" ++ n.link ++ ")."

/-- Embedding of `News.to_markdown`: raises `ValueError` when the news
has no summary (the title, a validated non-empty string, is never
`None`), otherwise renders the title, summary and citation link. -/
def News.to_markdown (n : News) : Except PyErr String :=
  match n.summary with
  | none => .error .valueError
  | some _ => .ok (News.markdownText n)

/-- Remove a key from an insertion-ordered dict (`d.pop(k, None)`
discards the entry; the remaining entries keep their order). -/
def dictRemove {κ ν : Type} [DecidableEq κ] : List (κ × ν) → κ → List (κ × ν)
  | [], _ => []
  | (k, v) :: rest, key => if k = key then rest else (k, v) :: dictRemove rest key

/-- One iteration of the loop of `Newsletter._formatted_news_per_rubric`
over `self.news`: `rubric` defaults to `Rubric.AUTRE` when the item is
unclassified; a missing key first receives the `## <rubric>` section
header (the source's `defaultdict(str)` never invokes its factory,
since the read goes through `.get`); then the item's markdown is
appended to the rubric's section. -/
def newsPerRubricStep (m : List (Rubric × String)) (item : News) :
    Except PyErr (List (Rubric × String)) := do
  let rubric := item.rubric.getD Rubric.AUTRE
  let m :=
    if (dictGet m rubric).isNone then dictSet m rubric ("## " ++ rubric.value) else m
  let md ← News.to_markdown item
  pure (dictSet m rubric ((dictGet m rubric).getD "" ++ ("\n\n" ++ md)))

/-- Embedding of `Newsletter._formatted_news_per_rubric` as a function
of `self.news`: build the rubric→section dict in input order, pop the
`Autre` entry, and return the section values with the `Autre` section
(if truthy) last. -/
def formatted_news_per_rubric (news : List News) : Except PyErr (List String) := do
  let news_per_rubric ← news.foldlM newsPerRubricStep []
  let non_classified_news := dictGet news_per_rubric Rubric.AUTRE
  let remaining := dictRemove news_per_rubric Rubric.AUTRE
  pure (remaining.map Prod.snd ++
    (match non_classified_news with
     | some s => if s ≠ "" then [s] else []
     | none => []))

/-- Embedding of `Newsletter.header` (the calendar rendering of the
datetime model is abstracted to `toString`). -/
def Newsletter.header (nl : Newsletter) : String :=
  "# Infolettre du CPEQ\n\n\nDate de publication: " ++
    toString nl.publication_datetime ++
    "\n\n\nVoici les nouvelles de la semaine du " ++
    toString nl.news_datetime_range.1 ++ " au " ++
    toString nl.news_datetime_range.2 ++ "."

/-- Embedding of `Newsletter.to_markdown`: the header followed by the
per-rubric sections, joined by blank lines. -/
def Newsletter.to_markdown (nl : Newsletter) : Except PyErr String := do
  let sections ← formatted_news_per_rubric nl.news
  pure (String.intercalate "\n\n" (nl.header :: sections))

/-- The rubric under which `_formatted_news_per_rubric` files a news
item: its own rubric, or `Autre` when unclassified. -/
def newsRubric (n : News) : Rubric := n.rubric.getD Rubric.AUTRE

/-- Specification-side helper: the distinct elements of a list in
order of first appearance. -/
def firstAppearOrder (rs : List Rubric) : List Rubric :=
  rs.foldl (fun acc r => if r ∈ acc then acc else acc ++ [r]) []

/-- Specification-side helper: move the `Autre` element, when present,
to the end of the list. -/
def moveAutreLast (rs : List Rubric) : List Rubric :=
  rs.filter (fun r => r ≠ Rubric.AUTRE) ++
    (if Rubric.AUTRE ∈ rs then [Rubric.AUTRE] else [])

/-- Specification-side helper: the full section rendered for a rubric:
its `##` header followed by the markdown of exactly the news filed
under it, in input order. -/
def sectionText (news : List News) (r : Rubric) : String :=
  "## " ++ r.value ++
    String.join ((news.filter (fun n => newsRubric n = r)).map
      (fun n => "\n\n" ++ News.markdownText n))

/-- Specification-side helper: the dict built by
`_formatted_news_per_rubric` after processing `news`, in canonical
form: one entry per rubric in first-appearance order, carrying its
full section text. -/
def canonDict (news : List News) : List (Rubric × String) :=
  (firstAppearOrder (news.map newsRubric)).map (fun r => (r, sectionText news r))

/-- Specification-side rendering stated by the claim: one section per
rubric present among the news, the sections ordered by the `Rubric`
enumeration order, each section built from its articles in input
order. -/
def enumOrderedSections (news : List News) : List String :=
  ((Rubric.AUTRE ::
      [Rubric.CHANGEMENT_CLIMATIQUE_ET_ENERGIE,
       Rubric.ACCEPTABILITE_SOCIALE_BRUIT_ET_TROUBLES_DE_VOISINAGE,
       Rubric.AMENAGEMENT_DU_TERRITOIRE_ET_URBANISME,
       Rubric.APPLICATION_DE_LA_LOI_ET_AFFAIRES_JURIDIQUES,
       Rubric.BIODIVERSITE_MILIEUX_HUMIDES_ET_ESPECES_EN_PERIL,
       Rubric.DEVELOPPEMENT_DURABLE_RSE_ET_CRITERES_ESG,
       Rubric.DEVELOPPEMENT_NORDIQUE,
       Rubric.DOMAINE_AEROSPATIAL,
       Rubric.DOMAINE_AGRICOLE,
       Rubric.EAU_ET_DOMAINE_MARITIME,
       Rubric.EVALUATIONS_ENVIRONNEMENTALES,
       Rubric.MATIERES_DANGEREUSES_ET_PESTICIDES,
       Rubric.MATIERES_ORGANIQUES_MATIERES_RESIDUELLES_ECOLOGIE_INDUSTRIELLE_ET_ECONOMIE_CIRCULAIRE,
       Rubric.NOUVELLES_ADMINISTRATIVES,
       Rubric.PECHERIES,
       Rubric.POLITIQUES_PUBLIQUES_ET_GOUVERNEMENTALES,
       Rubric.QUALITE_DE_LAIR,
       Rubric.RESSOURCES_NATURELLES,
       Rubric.SECTEUR_MANUFACTURIER_ET_PME,
       Rubric.SOLS_ET_TERRAINS_CONTAMINES,
       Rubric.SUBSTANCES_CHIMIQUES,
       Rubric.TECHNOLOGIES_PROPRES,
       Rubric.TRANSPORT_ET_MOBILITE_DURABLE]).filter
    (fun r => decide (r ∈ news.map newsRubric))).map (sectionText news)

/-- A summarized article classified `Changements climatiques et
énergie` (enumeration index 1), for concrete rendering runs. -/
def c5newsA1 : News :=
  ⟨"Titre A1", "Contenu A1", "https://a1", none,
    some Rubric.CHANGEMENT_CLIMATIQUE_ET_ENERGIE, some "Résumé A1"⟩

/-- A second summarized article of the same rubric as `c5newsA1`. -/
def c5newsA2 : News :=
  ⟨"Titre A2", "Contenu A2", "https://a2", none,
    some Rubric.CHANGEMENT_CLIMATIQUE_ET_ENERGIE, some "Résumé A2"⟩

/-- A summarized article classified `Acceptabilité sociale, bruit et
troubles de voisinage` (enumeration index 2). -/
def c5newsB : News :=
  ⟨"Titre B", "Contenu B", "https://b", none,
    some Rubric.ACCEPTABILITE_SOCIALE_BRUIT_ET_TROUBLES_DE_VOISINAGE, some "Résumé B"⟩

end SchemasMod

/-- C10: constructing a `Newsletter` with an empty news list fails with
a validation error, and every successfully constructed `Newsletter`
contains at least one `News`. -/
theorem newsletter_min_length :
    (∀ r p, SchemasMod.Newsletter.validate [] r p = .error .validationError) ∧
    (∀ news r p nl, SchemasMod.Newsletter.validate news r p = .ok nl →
      1 ≤ nl.news.length) := by
  constructor
  · intro r p
    rfl
  · intro news r p nl h
    unfold SchemasMod.Newsletter.validate at h
    split at h
    · cases h
      assumption
    · cases h

/-- C10 witness: a singleton news list validates, and the resulting
newsletter has at least one news item. -/
theorem newsletter_min_length_witness :
    1 ≤ (SchemasMod.Newsletter.mk [⟨"t", "c", "https://a", none, none, none⟩]
      (0, 1) 1).news.length :=
  newsletter_min_length.2 [⟨"t", "c", "https://a", none, none, none⟩] (0, 1) 1
    ⟨[⟨"t", "c", "https://a", none, none, none⟩], (0, 1), 1⟩ rfl

/-- C7 counterexample: with `minimal_score = 1/2`, a retrieved object
whose score equals the minimum is dropped by
`Vectorstore.hybrid_search`, contradicting the claim that an object
with `score = minimal_score` is kept. -/
theorem hybrid_search_boundary_dropped :
    VectorstoreMod.hybrid_search (1 / 2)
        [⟨⟨"t", "c", "https://a", none, none, none⟩, some (1 / 2)⟩] = [] ∧
    (⟨"t", "c", "https://a", none, none, none⟩, (1 / 2 : ℚ)) ∉
      VectorstoreMod.hybrid_search (1 / 2)
        [⟨⟨"t", "c", "https://a", none, none, none⟩, some (1 / 2)⟩] := by
  have h : VectorstoreMod.hybrid_search (1 / 2)
      [⟨⟨"t", "c", "https://a", none, none, none⟩, some (1 / 2)⟩] = [] := by
    simp [VectorstoreMod.hybrid_search]
  exact ⟨h, by rw [h]; simp⟩

/-- C7 (amended): `Vectorstore.hybrid_search` returns exactly the
retrieved objects whose score is present and strictly above the
configured minimum: `(news, score)` is returned iff some retrieved
object carries them with `minimal_score < score`; an object whose
score equals the minimum is dropped. -/
theorem hybrid_search_strict_min_score :
    ∀ (minimal_score : ℚ) (objects : List VectorstoreMod.RetrievedObject)
      (n : News) (s : ℚ),
      ((n, s) ∈ VectorstoreMod.hybrid_search minimal_score objects ↔
        ∃ obj ∈ objects, obj.properties = n ∧ obj.score = some s ∧ minimal_score < s) ∧
      (∀ p ∈ VectorstoreMod.hybrid_search minimal_score objects, minimal_score < p.2) := by
  intro minimal_score objects n s
  constructor
  · simp only [VectorstoreMod.hybrid_search, List.mem_filterMap]
    constructor
    · rintro ⟨obj, hobj, hsome⟩
      rcases hscore : obj.score with _ | s'
      · simp [hscore] at hsome
      · simp only [hscore] at hsome
        split at hsome
        · cases hsome
          exact ⟨obj, hobj, rfl, hscore, by assumption⟩
        · cases hsome
    · rintro ⟨obj, hobj, hprop, hscore, hlt⟩
      exact ⟨obj, hobj, by simp [hscore, hlt, hprop]⟩
  · intro p hp
    simp only [VectorstoreMod.hybrid_search, List.mem_filterMap] at hp
    rcases hp with ⟨obj, _, hsome⟩
    rcases hscore : obj.score with _ | s'
    · simp [hscore] at hsome
    · simp only [hscore] at hsome
      split at hsome
      · cases hsome
        assumption
      · cases hsome

/-- C9: `Vectorstore.create_uuid` is a pure deterministic function of
`news.title` alone: for any digest function and any two `News` values
with equal titles, the UUIDs are equal regardless of every other
field, and two calls on the same `News` agree. -/
theorem create_uuid_function_of_title :
    ∀ (sha1 : List Nat → List Nat) (n1 n2 : News), n1.title = n2.title →
      VectorstoreMod.create_uuid sha1 n1 = VectorstoreMod.create_uuid sha1 n2 ∧
      VectorstoreMod.create_uuid sha1 n1 = VectorstoreMod.create_uuid sha1 n1 := by
  intro sha1 n1 n2 h
  refine ⟨?_, rfl⟩
  unfold VectorstoreMod.create_uuid VectorstoreMod.uuid5
  rw [h]

/-- C9 witness: two concrete news items equal in title but differing in
content, link, datetime, rubric and summary receive the same UUID
(for a concrete digest function). -/
theorem create_uuid_function_of_title_witness :
    VectorstoreMod.create_uuid (fun l => List.replicate 20 (l.length % 256))
        ⟨"Même titre", "contenu A", "https://a", none, none, none⟩ =
      VectorstoreMod.create_uuid (fun l => List.replicate 20 (l.length % 256))
        ⟨"Même titre", "contenu B", "https://b", some 42,
          some Rubric.PECHERIES, some "un résumé"⟩ :=
  (create_uuid_function_of_title _ _ _ rfl).1

/-- C1 (code evaluated at the failing input): a 429 response carrying
`x-ratelimit-reset` 5 seconds in the future causes
`download_scraping_job_data` to retry the identical request exactly
once and return the retried result, but with an empty sleep list — the
client never sleeps when the header is present, because the
`asyncio.sleep` call sits inside the header-absent `else` branch.  The
header-absent fallback does sleep the fixed ceiling of 900 seconds. -/
theorem download_429_with_header_sleeps_nothing :
    WebscraperIo.download_scraping_job_data 0
        [.rateLimited (some 5),
         .success [some ⟨"t", "c", "https://a", some 1, none, none⟩]] =
      some ([], [⟨"t", "c", "https://a", some 1, none, none⟩]) ∧
    WebscraperIo.download_scraping_job_data 0
        [.rateLimited none,
         .success [some ⟨"t", "c", "https://a", some 1, none, none⟩]] =
      some ([900], [⟨"t", "c", "https://a", some 1, none, none⟩]) := by
  constructor
  · rfl
  · rfl

/-- C8 counterexample: on a `MaxPoolingNewsClassifier` on which `setup`
was never called, `predict_scores` raises `AttributeError` instead of
returning the empty score mapping the claim promises. -/
theorem maxpooling_unsetup_counterexample :
    ClassificationAlgo.MaxPoolingNewsClassifier.init.predict_scores [1] =
      .error .attributeError ∧
    ClassificationAlgo.MaxPoolingNewsClassifier.init.predict_scores [1] ≠ .ok [] := by
  refine ⟨rfl, ?_⟩
  intro h
  rw [show ClassificationAlgo.MaxPoolingNewsClassifier.init.predict_scores [1] =
      .error .attributeError from rfl] at h
  cases h

/-- C8 (amended): if `setup` has never been called, the instance's
`labels` list is empty and `label_average_embeddings` is unassigned,
and `predict_scores` fails with `AttributeError` on every embedding
(when it reads `self.label_average_embeddings`), rather than
returning a score mapping. -/
theorem maxpooling_unsetup_raises :
    ClassificationAlgo.MaxPoolingNewsClassifier.init.labels = [] ∧
    ClassificationAlgo.MaxPoolingNewsClassifier.init.label_average_embeddings = none ∧
    ∀ embedding : List ℚ,
      ClassificationAlgo.MaxPoolingNewsClassifier.init.predict_scores embedding =
        .error .attributeError := by
  exact ⟨rfl, rfl, fun _ => rfl⟩

/-- C6: `Service._filter_all_news` yields a downloaded article iff its
datetime is non-null, lies in the half-open window
`[start_date, end_date)`, and the relevancy classifier does not
classify it `Autre`; an article dated exactly `end_date` is dropped;
and the per-job coroutine runs the producer (rubric classification
then summarization) on exactly the filtered articles. -/
theorem filter_all_news_spec :
    ∀ (relevancy_predict : News → Relevance) (produce_news : News → News)
      (all_news : List News) (start_date end_date : Int) (n : News),
      (n ∈ ServiceMod.filter_all_news relevancy_predict all_news start_date end_date ↔
        n ∈ all_news ∧
          (∃ d, n.datetime = some d ∧ start_date ≤ d ∧ d < end_date) ∧
          relevancy_predict n ≠ Relevance.AUTRE) ∧
      (n.datetime = some end_date →
        n ∉ ServiceMod.filter_all_news relevancy_predict all_news start_date end_date) ∧
      ServiceMod.scraped_news_coroutine produce_news relevancy_predict all_news
          start_date end_date =
        (ServiceMod.filter_all_news relevancy_predict all_news start_date end_date).map
          produce_news := by
  intro relevancy_predict produce_news all_news start_date end_date n
  have hdate : ∀ s e : Int, ServiceMod.news_in_date_range n s e = true ↔
      ∃ d, n.datetime = some d ∧ s ≤ d ∧ d < e := by
    intro s e
    unfold ServiceMod.news_in_date_range
    rcases hd : n.datetime with _ | d
    · simp
    · simp
  have hmain : n ∈ ServiceMod.filter_all_news relevancy_predict all_news start_date end_date ↔
      n ∈ all_news ∧
        (∃ d, n.datetime = some d ∧ start_date ≤ d ∧ d < end_date) ∧
        relevancy_predict n ≠ Relevance.AUTRE := by
    unfold ServiceMod.filter_all_news ServiceMod.news_is_relevant
    rw [List.mem_filter]
    simp only [Bool.and_eq_true, Bool.not_eq_true', beq_eq_false_iff_ne, hdate]
  refine ⟨hmain, ?_, rfl⟩
  intro hend hmem
  rcases (hmain.mp hmem).2.1 with ⟨d, hd, _, hlt⟩
  rw [hend] at hd
  cases hd
  exact absurd hlt (lt_irrefl _)

/-- C6 witness: an article dated exactly at `end_date` is not yielded
by the filter even when the classifier finds everything relevant. -/
theorem filter_all_news_spec_witness :
    (⟨"t", "c", "https://a", some 10, none, none⟩ : News) ∉
      ServiceMod.filter_all_news (fun _ => Relevance.PERTINENT)
        [⟨"t", "c", "https://a", some 10, none, none⟩] 0 10 :=
  ((filter_all_news_spec (fun _ => Relevance.PERTINENT) id
    [⟨"t", "c", "https://a", some 10, none, none⟩] 0 10
    ⟨"t", "c", "https://a", some 10, none, none⟩).2.1) rfl

/-- Dividing each softmax numerator by a constant divides the sum. -/
theorem sum_exp_div (l : List (String × ℚ)) (D : ℝ) :
    (l.map (fun p => Real.exp ((p.2 : ℝ)) / D)).sum =
      (l.map (fun p => Real.exp ((p.2 : ℝ)))).sum / D := by
  induction l with
  | nil => simp
  | cons x xs ih => simp [ih, add_div]

/-- The softmax denominator over a non-empty score list is positive. -/
theorem exp_map_sum_pos (l : List (String × ℚ)) (h : l ≠ []) :
    0 < (l.map (fun p => Real.exp ((p.2 : ℝ)))).sum := by
  cases l with
  | nil => exact absurd rfl h
  | cons x xs =>
    simp only [List.map_cons, List.sum_cons]
    have h1 : 0 ≤ (xs.map (fun p => Real.exp ((p.2 : ℝ)))).sum := by
      refine List.sum_nonneg ?_
      intro y hy
      simp only [List.mem_map] at hy
      obtain ⟨a, _, rfl⟩ := hy
      exact (Real.exp_pos _).le
    have h2 := Real.exp_pos ((x.2 : ℝ))
    linarith

/-- `softmax_scores` keeps the keys of its input, in order. -/
theorem softmax_scores_keys (l : List (String × ℚ)) :
    (ClassificationAlgo.softmax_scores l).map Prod.fst = l.map Prod.fst := by
  unfold ClassificationAlgo.softmax_scores
  simp

/-- The values of `softmax_scores` over a non-empty input sum to 1. -/
theorem softmax_scores_sum (l : List (String × ℚ)) (h : l ≠ []) :
    ((ClassificationAlgo.softmax_scores l).map Prod.snd).sum = 1 := by
  unfold ClassificationAlgo.softmax_scores
  simp only [List.map_map, Function.comp_def]
  rw [sum_exp_div]
  exact div_self (ne_of_gt (exp_map_sum_pos l h))

/-- `softmax_scores` is monotone along the list: it maps a list whose
scores are non-increasing to a list whose probabilities are
non-increasing (softmax does not reorder). -/
theorem softmax_scores_sorted (l : List (String × ℚ))
    (hl : l.Pairwise (fun a b => b.2 ≤ a.2)) :
    (ClassificationAlgo.softmax_scores l).Pairwise (fun a b => b.2 ≤ a.2) := by
  unfold ClassificationAlgo.softmax_scores
  have hD : 0 ≤ (l.map (fun p => Real.exp ((p.2 : ℝ)))).sum := by
    refine List.sum_nonneg ?_
    intro y hy
    simp only [List.mem_map] at hy
    obtain ⟨a, _, rfl⟩ := hy
    exact (Real.exp_pos _).le
  refine List.Pairwise.map _ ?_ hl
  intro a b hba
  have hexp : Real.exp ((b.2 : ℝ)) ≤ Real.exp ((a.2 : ℝ)) :=
    Real.exp_le_exp.mpr (by exact_mod_cast hba)
  exact div_le_div_of_nonneg_right hexp hD

/-- `sort_scores_desc` permutes its input. -/
theorem sort_scores_desc_perm (l : List (String × ℚ)) :
    (ClassificationAlgo.sort_scores_desc l).Perm l :=
  List.mergeSort_perm l _

/-- `sort_scores_desc` sorts descending by score. -/
theorem sort_scores_desc_sorted (l : List (String × ℚ)) :
    (ClassificationAlgo.sort_scores_desc l).Pairwise (fun a b => b.2 ≤ a.2) := by
  have h := @List.sorted_mergeSort (String × ℚ)
    (fun a b => decide (b.2 ≤ a.2))
    (fun a b c hab hbc => by
      simp only [decide_eq_true_eq] at *
      exact le_trans hbc hab)
    (fun a b => by
      simp only [Bool.or_eq_true, decide_eq_true_eq]
      exact le_total b.2 a.2) l
  exact h.imp (by simp)

/-- C2: on a non-empty `predict_scores` output, `predict_probs` keeps
exactly the input labels (a permutation), orders its keys by
descending raw score, its values sum to exactly 1 in real arithmetic
(so within 1e-6 in floating point), and softmax does not reorder: the
output probabilities are non-increasing along the descending raw-score
order, so a label with a strictly higher raw score appears before and
receives a probability no smaller than a lower-scored label. -/
theorem predict_probs_spec (predicted_scores : List (String × ℚ))
    (h : predicted_scores ≠ []) :
    ((ClassificationAlgo.predict_probs predicted_scores).map Prod.fst =
      (ClassificationAlgo.sort_scores_desc predicted_scores).map Prod.fst) ∧
    (ClassificationAlgo.sort_scores_desc predicted_scores).Perm predicted_scores ∧
    (ClassificationAlgo.sort_scores_desc predicted_scores).Pairwise
      (fun a b => b.2 ≤ a.2) ∧
    ((ClassificationAlgo.predict_probs predicted_scores).map Prod.snd).sum = 1 ∧
    (ClassificationAlgo.predict_probs predicted_scores).Pairwise
      (fun a b => b.2 ≤ a.2) := by
  have hne : predicted_scores.isEmpty = false := by
    cases predicted_scores with
    | nil => exact absurd rfl h
    | cons x xs => rfl
  have hpp : ClassificationAlgo.predict_probs predicted_scores =
      ClassificationAlgo.softmax_scores
        (ClassificationAlgo.sort_scores_desc predicted_scores) := by
    simp [ClassificationAlgo.predict_probs, hne]
  have hsortne : ClassificationAlgo.sort_scores_desc predicted_scores ≠ [] := by
    intro hnil
    have hperm := sort_scores_desc_perm predicted_scores
    rw [hnil] at hperm
    exact h hperm.nil_eq.symm
  refine ⟨?_, sort_scores_desc_perm _, sort_scores_desc_sorted _, ?_, ?_⟩
  · rw [hpp, softmax_scores_keys]
  · rw [hpp]
    exact softmax_scores_sum _ hsortne
  · rw [hpp]
    exact softmax_scores_sorted _ (sort_scores_desc_sorted _)

/-- C2 witness: on the concrete two-label score mapping
`{a: 1, b: 0}` the probabilities sum to 1 and are non-increasing. -/
theorem predict_probs_spec_witness :
    ((ClassificationAlgo.predict_probs [("a", 1), ("b", 0)]).map Prod.snd).sum = 1 ∧
    (ClassificationAlgo.predict_probs [("a", 1), ("b", 0)]).Pairwise
      (fun a b => b.2 ≤ a.2) :=
  ⟨(predict_probs_spec [("a", 1), ("b", 0)] (by simp)).2.2.2.1,
   (predict_probs_spec [("a", 1), ("b", 0)] (by simp)).2.2.2.2⟩

/-- C3 (code evaluated at the failing input): for every wrapped
classifier, threshold and news item, `NewsFilterer.predict` raises
`NotImplementedError`: `self.predict_probs` dispatches to the base
`NewsClassifier.predict_scores` (which `NewsFilterer` does not
override) instead of consulting the wrapped strategy
`self.news_classifier`, so the probability of `Autre` is never read
and no `Relevance` is ever returned. -/
theorem news_filterer_predict_raises :
    ∀ (nf : NewsClassifierPy.NewsFilterer) (news : News),
      nf.predict news = .error .notImplementedError := by
  intro nf news
  rfl

/-- C4 counterexample: retrieval returning one exemplar whose summary
is the empty string — so every exemplar is filtered out of the prompt
— does not make `generate` fail: it sends the completion model the
zero-example system prompt (the claim required a `NoExemplars`
failure instead). -/
theorem generate_all_filtered_prompts_anyway :
    SummaryGeneratorMod.generate
        [⟨"Titre ex", "Contenu ex", "https://e", none, none, some ""⟩]
        ⟨"Titre", "Contenu", "https://a", none, none, none⟩ =
      .ok (SummaryGeneratorMod.format_system_prompt [], "Contenu") := by
  rfl

/-- C4 (amended): `generate` fails — with a `ValueError`, the code has
no `NoExemplars` error — exactly when some retrieved exemplar's
summary is `None`; otherwise it always prompts the completion model,
`format_system_prompt` builds the prompt only from the exemplars whose
summary and content are non-empty (the filtered-out ones never reach
the prompt), and when every exemplar is filtered out (or none was
retrieved) the model is silently prompted with zero examples. -/
theorem generate_spec :
    ∀ (similar_news : List News) (news_to_summarize : News),
      (SummaryGeneratorMod.generate similar_news news_to_summarize =
          .error .valueError ↔ ∃ n ∈ similar_news, n.summary = none) ∧
      ((∀ n ∈ similar_news, n.summary ≠ none) →
        SummaryGeneratorMod.generate similar_news news_to_summarize =
          .ok (SummaryGeneratorMod.format_system_prompt similar_news,
            news_to_summarize.content)) ∧
      SummaryGeneratorMod.format_system_prompt similar_news =
        SummaryGeneratorMod.format_system_prompt
          (similar_news.filter (fun n =>
            SummaryGeneratorMod.truthy n.summary && decide (n.content ≠ ""))) := by
  intro similar_news news_to_summarize
  refine ⟨?_, ?_, ?_⟩
  · unfold SummaryGeneratorMod.generate
    constructor
    · intro h
      split at h
      · rename_i hany
        simp only [List.any_eq_true, Option.isNone_iff_eq_none] at hany
        exact hany
      · cases h
    · intro hex
      have hany : similar_news.any (fun n => n.summary.isNone) = true := by
        simp only [List.any_eq_true, Option.isNone_iff_eq_none]
        exact hex
      rw [if_pos hany]
  · intro hall
    unfold SummaryGeneratorMod.generate
    have hany : similar_news.any (fun n => n.summary.isNone) = false := by
      simp only [List.any_eq_false, Option.isNone_iff_eq_none]
      exact hall
    rw [hany]
    simp
  · unfold SummaryGeneratorMod.format_system_prompt
    rw [List.filter_filter]
    simp

/-- C4 witness: one well-formed exemplar (non-null, non-empty summary)
makes `generate` return the prompt pair built from it. -/
theorem generate_spec_witness :
    SummaryGeneratorMod.generate
        [⟨"Titre ex", "Contenu ex", "https://e", none, none, some "Résumé ex"⟩]
        ⟨"Titre", "Contenu", "https://a", none, none, none⟩ =
      .ok (SummaryGeneratorMod.format_system_prompt
          [⟨"Titre ex", "Contenu ex", "https://e", none, none, some "Résumé ex"⟩],
        "Contenu") :=
  (generate_spec
    [⟨"Titre ex", "Contenu ex", "https://e", none, none, some "Résumé ex"⟩]
    ⟨"Titre", "Contenu", "https://a", none, none, none⟩).2.1 (by simp)

/-- Lookup distributes over dict concatenation. -/
theorem dictGet_append {κ ν : Type} [DecidableEq κ] (m1 m2 : List (κ × ν)) (k : κ) :
    dictGet (m1 ++ m2) k =
      (match dictGet m1 k with
       | some v => some v
       | none => dictGet m2 k) := by
  induction m1 with
  | nil => simp [dictGet]
  | cons p rest ih =>
    obtain ⟨q, v⟩ := p
    by_cases h : q = k
    · simp [dictGet, h]
    · simp [dictGet, h, ih]

/-- Lookup in a dict whose entries are generated from a key list. -/
theorem dictGet_map_keys {κ ν : Type} [DecidableEq κ] (F : List κ) (g : κ → ν) (r : κ) :
    dictGet (F.map (fun k => (k, g k))) r = if r ∈ F then some (g r) else none := by
  induction F with
  | nil => simp [dictGet]
  | cons a F ih =>
    by_cases h : a = r
    · subst h
      simp [dictGet]
    · have hmem : (r ∈ a :: F) ↔ r ∈ F := by
        rw [List.mem_cons]
        constructor
        · rintro (hra | hr)
          · exact absurd hra.symm h
          · exact hr
        · exact Or.inr
      simp only [List.map_cons, dictGet, if_neg h, ih, hmem]

/-- Assignment on a dict generated from a key list without duplicates:
an existing key is updated in place, a new key is appended. -/
theorem dictSet_map_keys {κ ν : Type} [DecidableEq κ] (F : List κ) (g : κ → ν)
    (r : κ) (v : ν) (hnd : F.Nodup) :
    dictSet (F.map (fun k => (k, g k))) r v =
      if r ∈ F then F.map (fun k => (k, if k = r then v else g k))
      else F.map (fun k => (k, g k)) ++ [(r, v)] := by
  induction F with
  | nil => simp [dictSet]
  | cons a F ih =>
    rcases List.nodup_cons.mp hnd with ⟨ha, hF⟩
    by_cases h : a = r
    · subst h
      rw [if_pos (List.mem_cons_self a F)]
      simp only [List.map_cons, dictSet, eq_self_iff_true, if_true]
      congr 1
      refine List.map_congr_left ?_
      intro k hk
      rw [if_neg (fun hkr : k = a => ha (hkr ▸ hk))]
    · have hmem : (r ∈ a :: F) ↔ r ∈ F := by
        rw [List.mem_cons]
        constructor
        · rintro (hra | hr)
          · exact absurd hra.symm h
          · exact hr
        · exact Or.inr
      simp only [List.map_cons, dictSet, if_neg h, ih hF, hmem]
      by_cases hr : r ∈ F
      · rw [if_pos hr, if_pos hr]
      · rw [if_neg hr, if_neg hr]
        rfl

/-- Removal from a dict generated from a key list without duplicates
filters that key out of the key list. -/
theorem dictRemove_map_keys {κ ν : Type} [DecidableEq κ] (F : List κ) (g : κ → ν)
    (r : κ) (hnd : F.Nodup) :
    SchemasMod.dictRemove (F.map (fun k => (k, g k))) r =
      (F.filter (fun k => k ≠ r)).map (fun k => (k, g k)) := by
  induction F with
  | nil => simp [SchemasMod.dictRemove]
  | cons a F ih =>
    rcases List.nodup_cons.mp hnd with ⟨ha, hF⟩
    by_cases h : a = r
    · subst h
      have hfil : (a :: F).filter (fun k => decide (k ≠ a)) = F := by
        rw [List.filter_cons, if_neg (by simp)]
        refine List.filter_eq_self.mpr ?_
        intro k hk
        simpa using fun hkr : k = a => ha (hkr ▸ hk)
      rw [hfil]
      simp only [List.map_cons, SchemasMod.dictRemove, eq_self_iff_true, if_true]
    · have hfil : (a :: F).filter (fun k => decide (k ≠ r)) =
          a :: F.filter (fun k => decide (k ≠ r)) := by
        rw [List.filter_cons, if_pos (by simpa using h)]
      rw [hfil]
      simp only [List.map_cons, SchemasMod.dictRemove, if_neg h, ih hF]

/-- Membership in the running first-appearance fold. -/
theorem mem_foldl_insert (rs : List Rubric) (acc : List Rubric) (x : Rubric) :
    (x ∈ rs.foldl (fun acc r => if r ∈ acc then acc else acc ++ [r]) acc) ↔
      x ∈ acc ∨ x ∈ rs := by
  induction rs generalizing acc with
  | nil => simp
  | cons r rs ih =>
    simp only [List.foldl_cons]
    by_cases h : r ∈ acc
    · rw [if_pos h, ih]
      constructor
      · rintro (hx | hx)
        · exact Or.inl hx
        · exact Or.inr (List.mem_cons_of_mem _ hx)
      · rintro (hx | hx)
        · exact Or.inl hx
        · rcases List.mem_cons.mp hx with rfl | hx
          · exact Or.inl h
          · exact Or.inr hx
    · rw [if_neg h, ih]
      simp only [List.mem_append, List.mem_singleton, List.mem_cons]
      tauto

/-- Membership in the first-appearance order is membership. -/
theorem mem_firstAppearOrder (rs : List Rubric) (x : Rubric) :
    x ∈ SchemasMod.firstAppearOrder rs ↔ x ∈ rs := by
  unfold SchemasMod.firstAppearOrder
  rw [mem_foldl_insert]
  simp

/-- The first-appearance fold preserves key distinctness. -/
theorem nodup_foldl_insert (rs : List Rubric) (acc : List Rubric) (h : acc.Nodup) :
    (rs.foldl (fun acc r => if r ∈ acc then acc else acc ++ [r]) acc).Nodup := by
  induction rs generalizing acc with
  | nil => exact h
  | cons r rs ih =>
    simp only [List.foldl_cons]
    by_cases hr : r ∈ acc
    · rw [if_pos hr]
      exact ih _ h
    · rw [if_neg hr]
      refine ih _ ?_
      rw [List.nodup_append]
      refine ⟨h, List.nodup_singleton r, ?_⟩
      intro a ha hb
      exact hr ((List.mem_singleton.mp hb) ▸ ha)

/-- The first-appearance order has no duplicate. -/
theorem nodup_firstAppearOrder (rs : List Rubric) :
    (SchemasMod.firstAppearOrder rs).Nodup :=
  nodup_foldl_insert rs [] List.nodup_nil

/-- Appending one element to the scanned list extends the
first-appearance order exactly when the element is new. -/
theorem firstAppearOrder_append (xs : List Rubric) (r : Rubric) :
    SchemasMod.firstAppearOrder (xs ++ [r]) =
      if r ∈ SchemasMod.firstAppearOrder xs then SchemasMod.firstAppearOrder xs
      else SchemasMod.firstAppearOrder xs ++ [r] := by
  unfold SchemasMod.firstAppearOrder
  rw [List.foldl_append]
  rfl

/-- Folding string concatenation from an arbitrary seed factors the
seed out front. -/
theorem string_foldl_append (l : List String) (a : String) :
    l.foldl (fun r s => r ++ s) a = a ++ l.foldl (fun r s => r ++ s) "" := by
  induction l generalizing a with
  | nil => simp
  | cons s l ih =>
    simp only [List.foldl_cons]
    rw [ih (a ++ s), ih ("" ++ s), String.empty_append, String.append_assoc]

/-- `String.join` distributes over list concatenation. -/
theorem string_join_append (l1 l2 : List String) :
    String.join (l1 ++ l2) = String.join l1 ++ String.join l2 := by
  unfold String.join
  rw [List.foldl_append, string_foldl_append]

/-- `String.join` of a singleton. -/
theorem string_join_singleton (s : String) : String.join [s] = s := by
  unfold String.join
  simp

/-- Appending a news item of another rubric leaves a section
unchanged. -/
theorem sectionText_append_ne (p : List News) (item : News) (k : Rubric)
    (h : SchemasMod.newsRubric item ≠ k) :
    SchemasMod.sectionText (p ++ [item]) k = SchemasMod.sectionText p k := by
  unfold SchemasMod.sectionText
  rw [List.filter_append]
  rw [show List.filter (fun n => decide (SchemasMod.newsRubric n = k)) [item] = []
    from by simp [h]]
  rw [List.append_nil]

/-- Appending a news item extends its own rubric's section at the
end. -/
theorem sectionText_append_eq (p : List News) (item : News) :
    SchemasMod.sectionText (p ++ [item]) (SchemasMod.newsRubric item) =
      SchemasMod.sectionText p (SchemasMod.newsRubric item) ++
        ("\n\n" ++ SchemasMod.News.markdownText item) := by
  unfold SchemasMod.sectionText
  rw [List.filter_append]
  rw [show List.filter
      (fun n => decide (SchemasMod.newsRubric n = SchemasMod.newsRubric item)) [item] =
      [item] from by simp]
  rw [List.map_append, string_join_append]
  simp only [List.map_cons, List.map_nil, string_join_singleton]
  simp [String.append_assoc]

/-- The section of a rubric under which no item is filed is just its
header. -/
theorem sectionText_not_mem (p : List News) (r : Rubric)
    (h : r ∉ p.map SchemasMod.newsRubric) :
    SchemasMod.sectionText p r = "## " ++ r.value := by
  unfold SchemasMod.sectionText
  rw [show p.filter (fun n => decide (SchemasMod.newsRubric n = r)) = [] from ?_]
  · simp [String.join]
  · refine List.filter_eq_nil_iff.mpr ?_
    intro n hn
    simp only [decide_eq_true_eq]
    exact fun he => h (he ▸ List.mem_map_of_mem _ hn)

/-- Appending a news item whose rubric is new creates its section from
the header. -/
theorem sectionText_append_new (p : List News) (item : News)
    (h : SchemasMod.newsRubric item ∉ p.map SchemasMod.newsRubric) :
    SchemasMod.sectionText (p ++ [item]) (SchemasMod.newsRubric item) =
      ("## " ++ (SchemasMod.newsRubric item).value) ++
        ("\n\n" ++ SchemasMod.News.markdownText item) := by
  rw [sectionText_append_eq, sectionText_not_mem p _ h]

/-- Dict assignment skips a prefix that does not hold the key. -/
theorem dictSet_append_of_not_mem {κ ν : Type} [DecidableEq κ]
    (m1 m2 : List (κ × ν)) (r : κ) (v : ν) (h : ∀ q ∈ m1, q.1 ≠ r) :
    dictSet (m1 ++ m2) r v = m1 ++ dictSet m2 r v := by
  induction m1 with
  | nil => simp
  | cons q rest ih =>
    obtain ⟨k, w⟩ := q
    simp only [List.cons_append, dictSet]
    rw [if_neg (h (k, w) (List.mem_cons_self _ _))]
    simp only [List.append_eq]
    rw [ih (fun q hq => h q (List.mem_cons_of_mem _ hq))]

/-- One loop iteration of `_formatted_news_per_rubric` takes the
canonical dict for a processed prefix to the canonical dict for the
prefix extended by the item (when the item has a summary). -/
theorem newsPerRubricStep_canon (p : List News) (item : News)
    (hs : item.summary ≠ none) :
    SchemasMod.newsPerRubricStep (SchemasMod.canonDict p) item =
      Except.ok (SchemasMod.canonDict (p ++ [item])) := by
  obtain ⟨s, hsome⟩ : ∃ s, item.summary = some s := by
    cases hsum : item.summary with
    | none => exact absurd hsum hs
    | some s => exact ⟨s, rfl⟩
  have hmd : SchemasMod.News.to_markdown item =
      Except.ok (SchemasMod.News.markdownText item) := by
    unfold SchemasMod.News.to_markdown
    rw [hsome]
  set r := SchemasMod.newsRubric item with hr
  set F := SchemasMod.firstAppearOrder (p.map SchemasMod.newsRubric) with hF
  have hG : SchemasMod.firstAppearOrder ((p ++ [item]).map SchemasMod.newsRubric) =
      if r ∈ F then F else F ++ [r] := by
    rw [List.map_append]
    simp only [List.map_cons, List.map_nil]
    rw [firstAppearOrder_append]
  by_cases hmem : r ∈ F
  · have hget : dictGet (SchemasMod.canonDict p) r =
        some (SchemasMod.sectionText p r) := by
      unfold SchemasMod.canonDict
      rw [dictGet_map_keys, if_pos hmem]
    have hset : dictSet (SchemasMod.canonDict p) r
        (SchemasMod.sectionText p r ++ ("\n\n" ++ SchemasMod.News.markdownText item)) =
        SchemasMod.canonDict (p ++ [item]) := by
      unfold SchemasMod.canonDict
      rw [dictSet_map_keys _ _ _ _ (nodup_firstAppearOrder _)]
      rw [if_pos hmem, hG, if_pos hmem]
      refine List.map_congr_left ?_
      intro k hk
      by_cases hkr : k = r
      · subst hkr
        rw [if_pos rfl, hr, sectionText_append_eq]
      · rw [if_neg hkr, sectionText_append_ne p item k
          (fun he => hkr ((hr.trans he).symm))]
    unfold SchemasMod.newsPerRubricStep
    simp only []
    rw [show item.rubric.getD Rubric.AUTRE = r from hr.symm]
    simp only [hget, Option.isNone_some, Bool.false_eq_true, if_false, hmd,
      Option.getD_some]
    show Except.ok (dictSet (SchemasMod.canonDict p) r
      (SchemasMod.sectionText p r ++ ("\n\n" ++ SchemasMod.News.markdownText item))) = _
    rw [hset]
  · have hget : dictGet (SchemasMod.canonDict p) r = none := by
      unfold SchemasMod.canonDict
      rw [dictGet_map_keys, if_neg hmem]
    have hkeys : ∀ q ∈ SchemasMod.canonDict p, q.1 ≠ r := by
      intro q hq
      unfold SchemasMod.canonDict at hq
      rcases List.mem_map.mp hq with ⟨k, hk, rfl⟩
      exact fun he => hmem (he ▸ hk)
    have hset1 : dictSet (SchemasMod.canonDict p) r ("## " ++ r.value) =
        SchemasMod.canonDict p ++ [(r, "## " ++ r.value)] := by
      unfold SchemasMod.canonDict
      rw [dictSet_map_keys _ _ _ _ (nodup_firstAppearOrder _), if_neg hmem]
    have hget2 : dictGet (SchemasMod.canonDict p ++ [(r, "## " ++ r.value)]) r =
        some ("## " ++ r.value) := by
      rw [dictGet_append, hget]
      simp [dictGet]
    have hrp : r ∉ p.map SchemasMod.newsRubric := fun hin =>
      hmem ((mem_firstAppearOrder _ _).mpr hin)
    have hset2 : dictSet (SchemasMod.canonDict p ++ [(r, "## " ++ r.value)]) r
        (("## " ++ r.value) ++ ("\n\n" ++ SchemasMod.News.markdownText item)) =
        SchemasMod.canonDict (p ++ [item]) := by
      rw [dictSet_append_of_not_mem _ _ _ _ hkeys]
      rw [show dictSet [(r, "## " ++ r.value)] r
          (("## " ++ r.value) ++ ("\n\n" ++ SchemasMod.News.markdownText item)) =
          [(r, ("## " ++ r.value) ++ ("\n\n" ++ SchemasMod.News.markdownText item))]
        from by simp [dictSet]]
      unfold SchemasMod.canonDict
      rw [hG, if_neg hmem, List.map_append]
      congr 1
      · refine List.map_congr_left ?_
        intro k hk
        rw [sectionText_append_ne p item k (fun he => hmem ((hr.trans he) ▸ hk))]
      · simp only [List.map_cons, List.map_nil]
        rw [hr, sectionText_append_new p item (hr ▸ hrp)]
    unfold SchemasMod.newsPerRubricStep
    simp only []
    rw [show item.rubric.getD Rubric.AUTRE = r from hr.symm]
    simp only [hget, Option.isNone_none, if_true, hset1, hget2, hmd, Option.getD_some]
    show Except.ok (dictSet (SchemasMod.canonDict p ++ [(r, "## " ++ r.value)]) r
      (("## " ++ r.value) ++ ("\n\n" ++ SchemasMod.News.markdownText item))) = _
    rw [hset2]

/-- The whole loop of `_formatted_news_per_rubric` computes the
canonical dict (generalized over a processed prefix). -/
theorem foldlM_newsPerRubricStep (l : List News) (p : List News)
    (h : ∀ n ∈ l, n.summary ≠ none) :
    List.foldlM SchemasMod.newsPerRubricStep (SchemasMod.canonDict p) l =
      Except.ok (SchemasMod.canonDict (p ++ l)) := by
  induction l generalizing p with
  | nil =>
    simp only [List.foldlM_nil, List.append_nil]
    rfl
  | cons item rest ih =>
    rw [List.foldlM_cons]
    rw [newsPerRubricStep_canon p item (h item (List.mem_cons_self _ _))]
    show List.foldlM SchemasMod.newsPerRubricStep
      (SchemasMod.canonDict (p ++ [item])) rest = _
    rw [ih (p ++ [item]) (fun n hn => h n (List.mem_cons_of_mem _ hn))]
    rw [List.append_assoc]
    rfl

/-- A rendered section is never the empty string (it starts with its
`##` header). -/
theorem sectionText_ne_empty (news : List News) (r : Rubric) :
    SchemasMod.sectionText news r ≠ "" := by
  intro hcontra
  have hlen := congrArg String.length hcontra
  unfold SchemasMod.sectionText at hlen
  rw [String.length_append, String.length_append] at hlen
  have h3 : ("## ").length = 3 := rfl
  have h0 : ("" : String).length = 0 := rfl
  rw [h3, h0] at hlen
  omega

/-- C5 (amended): on summarized news, `_formatted_news_per_rubric`
returns one section per rubric present, with the sections ordered by
first appearance of each rubric in the news list — not by the `Rubric`
enumeration order — and the `Autre` section (articles carrying the
`Autre` rubric or no rubric), if any, moved to the end; articles
sharing a rubric appear inside their section in input order; there is
no `Autre` section when no article is filed under `Autre`. -/
theorem formatted_news_per_rubric_first_appearance (news : List News)
    (h : ∀ n ∈ news, n.summary ≠ none) :
    SchemasMod.formatted_news_per_rubric news =
      Except.ok ((SchemasMod.moveAutreLast
          (SchemasMod.firstAppearOrder (news.map SchemasMod.newsRubric))).map
        (SchemasMod.sectionText news)) := by
  unfold SchemasMod.formatted_news_per_rubric
  have hfold := foldlM_newsPerRubricStep news [] h
  rw [show SchemasMod.canonDict [] = ([] : List (Rubric × String)) from rfl,
    List.nil_append] at hfold
  rw [hfold]
  have hnd := nodup_firstAppearOrder (news.map SchemasMod.newsRubric)
  have hget : dictGet (SchemasMod.canonDict news) Rubric.AUTRE =
      if Rubric.AUTRE ∈ SchemasMod.firstAppearOrder (news.map SchemasMod.newsRubric)
      then some (SchemasMod.sectionText news Rubric.AUTRE) else none := by
    unfold SchemasMod.canonDict
    rw [dictGet_map_keys]
  have hrm : SchemasMod.dictRemove (SchemasMod.canonDict news) Rubric.AUTRE =
      ((SchemasMod.firstAppearOrder (news.map SchemasMod.newsRubric)).filter
        (fun k => k ≠ Rubric.AUTRE)).map
          (fun k => (k, SchemasMod.sectionText news k)) := by
    unfold SchemasMod.canonDict
    rw [dictRemove_map_keys _ _ _ hnd]
  by_cases hA : Rubric.AUTRE ∈ SchemasMod.firstAppearOrder (news.map SchemasMod.newsRubric)
  · show Except.ok _ = _
    congr 1
    unfold SchemasMod.moveAutreLast
    rw [hrm, hget, if_pos hA, if_pos hA, List.map_map, List.map_append]
    congr 1
  · show Except.ok _ = _
    congr 1
    unfold SchemasMod.moveAutreLast
    rw [hrm, hget, if_neg hA, if_neg hA, List.map_map, List.map_append]
    congr 1

set_option maxRecDepth 4096 in
/-- C5 counterexample: on the news list `[B-article, A-article]` whose
rubrics have enumeration indices 2 and 1, the rendered sections put
rubric B's section first (first-appearance order), not rubric A's as
the Rubric-enumeration order requires: the output differs from the
enumeration-ordered rendering stated by the claim. -/
theorem formatted_news_per_rubric_counterexample :
    SchemasMod.formatted_news_per_rubric [SchemasMod.c5newsB, SchemasMod.c5newsA1] =
      Except.ok
        [SchemasMod.sectionText [SchemasMod.c5newsB, SchemasMod.c5newsA1]
          Rubric.ACCEPTABILITE_SOCIALE_BRUIT_ET_TROUBLES_DE_VOISINAGE,
         SchemasMod.sectionText [SchemasMod.c5newsB, SchemasMod.c5newsA1]
          Rubric.CHANGEMENT_CLIMATIQUE_ET_ENERGIE] ∧
    SchemasMod.enumOrderedSections [SchemasMod.c5newsB, SchemasMod.c5newsA1] =
      [SchemasMod.sectionText [SchemasMod.c5newsB, SchemasMod.c5newsA1]
        Rubric.CHANGEMENT_CLIMATIQUE_ET_ENERGIE,
       SchemasMod.sectionText [SchemasMod.c5newsB, SchemasMod.c5newsA1]
        Rubric.ACCEPTABILITE_SOCIALE_BRUIT_ET_TROUBLES_DE_VOISINAGE] ∧
    SchemasMod.formatted_news_per_rubric [SchemasMod.c5newsB, SchemasMod.c5newsA1] ≠
      Except.ok (SchemasMod.enumOrderedSections [SchemasMod.c5newsB, SchemasMod.c5newsA1]) ∧
    Rubric.enumIndex Rubric.CHANGEMENT_CLIMATIQUE_ET_ENERGIE <
      Rubric.enumIndex Rubric.ACCEPTABILITE_SOCIALE_BRUIT_ET_TROUBLES_DE_VOISINAGE := by
  refine ⟨rfl, rfl, ?_, by decide⟩
  intro hcontra
  rw [show SchemasMod.formatted_news_per_rubric
      [SchemasMod.c5newsB, SchemasMod.c5newsA1] =
      Except.ok
        [SchemasMod.sectionText [SchemasMod.c5newsB, SchemasMod.c5newsA1]
          Rubric.ACCEPTABILITE_SOCIALE_BRUIT_ET_TROUBLES_DE_VOISINAGE,
         SchemasMod.sectionText [SchemasMod.c5newsB, SchemasMod.c5newsA1]
          Rubric.CHANGEMENT_CLIMATIQUE_ET_ENERGIE] from rfl] at hcontra
  exact absurd (congrArg (fun l => l.map (fun s => s.take 6)) (Except.ok.inj hcontra))
    (by decide)

/-- C5 witness: the specification scenario — three summarized articles
with rubrics `[A, B, A]` in processing order — renders rubric A's
section (both A-articles, in input order) before rubric B's, with no
`Autre` section. -/
theorem formatted_news_per_rubric_first_appearance_witness :
    SchemasMod.formatted_news_per_rubric
        [SchemasMod.c5newsA1, SchemasMod.c5newsB, SchemasMod.c5newsA2] =
      Except.ok ((SchemasMod.moveAutreLast (SchemasMod.firstAppearOrder
          ([SchemasMod.c5newsA1, SchemasMod.c5newsB, SchemasMod.c5newsA2].map
            SchemasMod.newsRubric))).map
        (SchemasMod.sectionText
          [SchemasMod.c5newsA1, SchemasMod.c5newsB, SchemasMod.c5newsA2])) :=
  formatted_news_per_rubric_first_appearance
    [SchemasMod.c5newsA1, SchemasMod.c5newsB, SchemasMod.c5newsA2] (by decide)
